import Mathlib

/-!
# Verification of the `nyc-crash-webapp` filter-and-aggregate pipeline

Shallow embedding of `app.py` (the only source file of the repository).
The logical core is the callback `update_charts(n_clicks, borough, year,
search_term)`: it filters the loaded record table `df` by a search term and
two dropdown values, and computes eight chart summaries.

Modelling conventions:
* A pandas row becomes a `Record`.  The load-time normalization
  `df['borough'].astype(str).str.strip().str.upper()` (app.py line 15) means
  the `borough` field of a stored record is always a present `String`; an
  absent CSV value becomes the sentinel `"NAN"` (Python `str(nan) = "nan"`,
  then upper-cased).  This normalization is `normalizeBorough`.
* Optional numeric columns (`year`, coordinates, injury counts) become
  `Option` fields; pandas `NaN` is `none`.  Sums skip `none`
  (pandas `sum` skips `NaN`), i.e. they use `Option.getD 0`.
* Python string operations used by the code are modelled on the character
  list of a `String`: `pyLower`/`pyUpper` (`str.lower`/`str.upper`),
  `pyStrip` (`str.strip`), and `pyIn needle hay` (Python `needle in hay`,
  contiguous substring containment).
* pandas `unique()` returns distinct values in first-encountered order:
  `uniqueFirst`.  `value_counts()` sorts counts descending with ties kept in
  first-encountered order, and `sort`ing of group keys is modelled by a
  stable insertion sort `sortedBy`.
* Each `px.*` figure becomes a `Chart` constructor carrying exactly the data
  the code hands to the chart library; the rendering itself is external.
-/

/-- Python `needle == hay[i:i+len(needle)]` at the head: `needle` is a
character-wise prefix match of `hay`. -/
def matchesAt : List Char → List Char → Bool
  | [], _ => true
  | _ :: _, [] => false
  | n :: ns, h :: hs => n == h && matchesAt ns hs

/-- Contiguous-substring containment on character lists. -/
def containsSeq (needle : List Char) : List Char → Bool
  | [] => needle.isEmpty
  | h :: hs => matchesAt needle (h :: hs) || containsSeq needle hs

/-- Python `needle in hay` for strings. -/
def pyIn (needle hay : String) : Bool := containsSeq needle.toList hay.toList

/-- Python `str.lower()` (character-wise). -/
def pyLower (s : String) : String := ⟨s.toList.map Char.toLower⟩

/-- Python `str.upper()` (character-wise). -/
def pyUpper (s : String) : String := ⟨s.toList.map Char.toUpper⟩

/-- Python `str.strip()`: drop leading and trailing whitespace. -/
def pyStrip (s : String) : String :=
  ⟨((s.toList.dropWhile Char.isWhitespace).reverse.dropWhile
      Char.isWhitespace).reverse⟩

/-- Recursion core of `uniqueFirst`; the fuel only makes the recursion
structural and any fuel `≥ l.length` computes the same list. -/
def uniqueFirstAux {α : Type} [DecidableEq α] : Nat → List α → List α
  | _, [] => []
  | 0, _ :: _ => []
  | fuel + 1, x :: xs => x :: uniqueFirstAux fuel (xs.filter (fun y => y != x))

/-- pandas `Series.unique()`: the distinct values of a list, in
first-encountered order. -/
def uniqueFirst {α : Type} [DecidableEq α] (l : List α) : List α :=
  uniqueFirstAux l.length l

/-- Insert `x` into `l`, placing it before the first element `y` with
`le x y = true`.  Folding this from the right over a list is a stable
insertion sort (`sortedBy`). -/
def insertBy {α : Type} (le : α → α → Bool) (x : α) : List α → List α
  | [] => [x]
  | y :: ys => if le x y then x :: y :: ys else y :: insertBy le x ys

/-- Stable insertion sort by the comparator `le`. -/
def sortedBy {α : Type} (le : α → α → Bool) (l : List α) : List α :=
  l.foldr (insertBy le) []

/-- pandas `Series.value_counts()` before sorting: each distinct value (in
first-encountered order) paired with its number of occurrences. -/
def valueCounts (l : List String) : List (String × Nat) :=
  (uniqueFirst l).map (fun v => (v, l.count v))

/-- Comparator realising `value_counts()`' descending sort on counts: an
earlier element stays before a later one exactly when the later count is
`≤` its own, so ties keep first-encountered order. -/
def countDescLe (a b : String × Nat) : Bool := decide (b.2 ≤ a.2)

/-- Ascending comparator on years. -/
def intLeB (a b : Int) : Bool := decide (a ≤ b)

/-- Ascending comparator on strings (used for sorted group keys). -/
def strLeB (a b : String) : Bool := a == b || decide (a < b)

/-- Lexicographic comparator on (borough, vehicle-type) group keys. -/
def pairLeB (a b : String × String) : Bool :=
  if a.1 = b.1 then strLeB a.2 b.2 else strLeB a.1 b.1

/-- One row of the Record Store, after the load-time preparation of
app.py lines 10–17.  `borough` is already normalized (line 15); all other
optional columns keep pandas `NaN` as `none`. -/
structure Record where
  year : Option Int
  borough : String
  latitude : Option ℚ
  longitude : Option ℚ
  vehicle_type_code1 : Option String
  contributing_factor_vehicle_1 : Option String
  number_of_persons_injured : Option Nat
  number_of_persons_killed : Option Nat
deriving DecidableEq

/-- Line 15: `df['borough'] = df['borough'].astype(str).str.strip().str.upper()`.
An absent value is `str(nan) = "nan"`, stripped and upper-cased to the
sentinel `"NAN"`. -/
def normalizeBorough : Option String → String
  | none => "NAN"
  | some s => pyUpper (pyStrip s)

/-- The three user inputs consumed by `update_charts` (borough dropdown,
year dropdown, search box).  `none` is an unset input; the code also treats
the falsy values `""` (for strings) and `0` (for the year) as unset. -/
structure FilterSpec where
  borough : Option String
  year : Option Int
  search : Option String

/-- Line 127: `df['borough'].dropna().unique()` — the `dropna` is a no-op
because line 15 made every borough a present string. -/
def distinctBoroughs (store : List Record) : List String :=
  uniqueFirst (store.map (·.borough))

/-- Line 130: `df['year'].dropna().unique()` — the present years of the
full store, distinct, in first-encountered order. -/
def distinctYears (store : List Record) : List Int :=
  uniqueFirst (store.filterMap (·.year))

/-- Lines 128–129: if this borough's lower-cased name occurs in the search
term, keep only the records whose borough lower-cases to the same string. -/
def boroughStep (term : String) (acc : List Record) (b : String) : List Record :=
  if pyIn (pyLower b) term then
    acc.filter (fun r => pyLower r.borough == pyLower b)
  else acc

/-- Lines 127–129: the `for b in df['borough'].dropna().unique():` loop. -/
def boroughFold (term : String) (bs : List String) (dff : List Record) :
    List Record :=
  bs.foldl (boroughStep term) dff

/-- Lines 131–132: if `str(int(y))` occurs in the search term, keep only the
records of that year (`NaN == y` is false, hence `r.year == some y`). -/
def yearStep (term : String) (acc : List Record) (y : Int) : List Record :=
  if pyIn (toString y) term then acc.filter (fun r => r.year == some y) else acc

/-- Lines 130–132: the `for y in df['year'].dropna().unique():` loop. -/
def yearFold (term : String) (ys : List Int) (dff : List Record) :
    List Record :=
  ys.foldl (yearStep term) dff

/-- Line 134–135: `str.contains('pedestrian', case=False, na=False)` —
an absent factor never matches (`na=False`). -/
def pedMatch (r : Record) : Bool :=
  match r.contributing_factor_vehicle_1 with
  | none => false
  | some f => pyIn "pedestrian" (pyLower f)

/-- Lines 133–135.  The column-existence test
`'contributing_factor_vehicle_1' in dff` is always true in the fixed
schema, so only the `'pedestrian' in term` test remains. -/
def applyPedestrian (term : String) (dff : List Record) : List Record :=
  if pyIn "pedestrian" term then dff.filter pedMatch else dff

/-- Lines 125–135: the whole search-logic block, on the lower-cased term. -/
def runSearch (store : List Record) (s : String) (dff : List Record) :
    List Record :=
  let term := pyLower s
  applyPedestrian term
    (yearFold term (distinctYears store)
      (boroughFold term (distinctBoroughs store) dff))

/-- Line 125: `if search_term:` — `None` and `""` are falsy. -/
def applySearch (store : List Record) (sopt : Option String)
    (dff : List Record) : List Record :=
  match sopt with
  | none => dff
  | some s => if s = "" then dff else runSearch store s dff

/-- Lines 138–139: `if borough: dff = dff[dff['borough'] == borough.upper()]`. -/
def applyBorough (bopt : Option String) (dff : List Record) : List Record :=
  match bopt with
  | none => dff
  | some b => if b = "" then dff else dff.filter (fun r => r.borough == pyUpper b)

/-- Lines 140–141: `if year: dff = dff[dff['year'] == year]` (`0` is falsy). -/
def applyYear (yopt : Option Int) (dff : List Record) : List Record :=
  match yopt with
  | none => dff
  | some y => if y = 0 then dff else dff.filter (fun r => r.year == some y)

/-- Lines 122–141: the Query Engine.  `dff = df.copy()`, then search logic,
then the two dropdown filters, in source order. -/
def filterRecords (store : List Record) (spec : FilterSpec) : List Record :=
  applyYear spec.year (applyBorough spec.borough (applySearch store spec.search store))

/-! ## Aggregation layer (lines 143–241) -/

/-- Sum of `number_of_persons_injured` over a view (pandas `sum` skips NaN). -/
def sumInj (view : List Record) : Nat :=
  (view.map (fun r => r.number_of_persons_injured.getD 0)).sum

/-- Sum of `number_of_persons_killed` over a view. -/
def sumKilled (view : List Record) : Nat :=
  (view.map (fun r => r.number_of_persons_killed.getD 0)).sum

/-- The present values of the `vehicle_type_code1` column of a view
(`value_counts` drops NaN). -/
def vehicleList (view : List Record) : List String :=
  view.filterMap (·.vehicle_type_code1)

/-- Line 150: `dff['vehicle_type_code1'].value_counts().nlargest(10)` —
counts of the present vehicle types, sorted by count descending (stable, so
ties keep first-encountered order), first 10 kept. -/
def topVehicle (view : List Record) : List (String × Nat) :=
  (sortedBy countDescLe (valueCounts (vehicleList view))).take 10

/-- Line 164: `map_data = dff.dropna(subset=['latitude', 'longitude'])`. -/
def mapData (view : List Record) : List Record :=
  view.filter (fun r => r.latitude.isSome && r.longitude.isSome)

/-- The per-record data handed to `px.histogram` (line 211–216): the
`number_of_persons_injured` column of the view; the 20-bin bucketing is done
by the external chart renderer. -/
def histValues (view : List Record) : List (Option Nat) :=
  view.map (·.number_of_persons_injured)

/-- The per-record data handed to `px.scatter` (lines 219–225): one
(injured, killed, borough) triple per record, not aggregated. -/
def scatterPoints (view : List Record) : List (Option Nat × Option Nat × String) :=
  view.map (fun r =>
    (r.number_of_persons_injured, r.number_of_persons_killed, r.borough))

/-- Line 187: `dff.groupby('year').size()` — the distinct present years of
the view (groupby drops NaN keys), sorted ascending, with record counts. -/
def lineData (view : List Record) : List (Int × Nat) :=
  (sortedBy intLeB (uniqueFirst (view.filterMap (·.year)))).map
    (fun y => (y, (view.filter (fun r => r.year == some y)).length))

/-- Rows of the pivot of lines 197–203: the boroughs of the records that
survive the NaN-key drop (those with a present year), sorted ascending. -/
def pivotBoroughs (view : List Record) : List String :=
  sortedBy strLeB
    (uniqueFirst ((view.filter (fun r => r.year.isSome)).map (·.borough)))

/-- Columns of the pivot of lines 197–203: the present years, sorted. -/
def pivotYears (view : List Record) : List Int :=
  sortedBy intLeB (uniqueFirst (view.filterMap (·.year)))

/-- One pivot cell: the injury sum over records of borough `b` and year `y`
(`fill_value=0` makes an empty cell 0). -/
def cellSum (view : List Record) (b : String) (y : Int) : Nat :=
  ((view.filter (fun r => r.borough == b && r.year == some y)).map
    (fun r => r.number_of_persons_injured.getD 0)).sum

/-- Lines 197–203: the borough × year injury pivot, flattened row-major. -/
def heatCells (view : List Record) : List (String × Int × Nat) :=
  ((pivotBoroughs view).product (pivotYears view)).map
    (fun p => (p.1, p.2, cellSum view p.1 p.2))

/-- The total of all cells of the heatmap grid. -/
def heatTotal (view : List Record) : Nat :=
  ((heatCells view).map (fun c => c.2.2)).sum

/-- Line 229: the sunburst group key — borough together with the vehicle
type, `fillna('UNKNOWN')`. -/
def sunKey (r : Record) : String × String :=
  (r.borough, r.vehicle_type_code1.getD "UNKNOWN")

/-- The injury sum of one sunburst group. -/
def sunGroupSum (view : List Record) (k : String × String) : Nat :=
  ((view.filter (fun r => sunKey r == k)).map
    (fun r => r.number_of_persons_injured.getD 0)).sum

/-- Lines 228–233: `sunburst_df.groupby(['borough','vehicle_type_code1'],
as_index=False)['number_of_persons_injured'].sum()` — one row per distinct
group key (groupby sorts keys), before the zero→1 substitution. -/
def sunburstGroups (view : List Record) : List (String × String × Nat) :=
  (sortedBy pairLeB (uniqueFirst (view.map sunKey))).map
    (fun k => (k.1, k.2, sunGroupSum view k))

/-- Line 234: `.replace(0, 1)` on the group sums. -/
def sunburstAdjusted (view : List Record) : List (String × String × Nat) :=
  (sunburstGroups view).map
    (fun g => (g.1, g.2.1, if g.2.2 = 0 then 1 else g.2.2))

/-- One figure handed back to the UI.  `noData` is the single shared
placeholder of lines 144–146; `mapNoLocation` is the distinct
no-location fallback of lines 166–174. -/
inductive Chart where
  | noData : Chart
  | bar : List (String × Nat) → Chart
  | pie : Nat → Nat → Chart
  | mapPoints : List (ℚ × ℚ × String) → Chart
  | mapNoLocation : ℚ → ℚ → Chart
  | line : List (Int × Nat) → Chart
  | heat : List (String × Int × Nat) → Chart
  | hist : List (Option Nat) → Chart
  | scatter : List (Option Nat × Option Nat × String) → Chart
  | sunburst : List (String × String × Nat) → Chart
deriving DecidableEq

/-- Lines 163–184: the map summary — the located records, or the sentinel
point near (40.7128, -74.0060) when none has both coordinates. -/
def mapChart (view : List Record) : Chart :=
  if (mapData view).isEmpty then
    Chart.mapNoLocation (40.7128 : ℚ) (-74.0060 : ℚ)
  else
    Chart.mapPoints ((mapData view).map
      (fun r => (r.latitude.getD 0, r.longitude.getD 0, r.borough)))

/-- Lines 118–243: the whole callback.  `none` models `PreventUpdate`
(line 119–120); otherwise the eight figures are returned in source order:
bar, pie, map, line, heatmap, histogram, scatter, sunburst.  An empty
filtered view short-circuits (lines 144–146) to eight copies of the one
shared placeholder figure. -/
def update_charts (n_clicks : Nat) (store : List Record) (spec : FilterSpec) :
    Option (Chart × Chart × Chart × Chart × Chart × Chart × Chart × Chart) :=
  if n_clicks = 0 then none
  else
    let dff := filterRecords store spec
    if dff.isEmpty then
      some (Chart.noData, Chart.noData, Chart.noData, Chart.noData,
        Chart.noData, Chart.noData, Chart.noData, Chart.noData)
    else
      some (Chart.bar (topVehicle dff),
        Chart.pie (sumInj dff) (sumKilled dff),
        mapChart dff,
        Chart.line (lineData dff),
        Chart.heat (heatCells dff),
        Chart.hist (histValues dff),
        Chart.scatter (scatterPoints dff),
        Chart.sunburst (sunburstAdjusted dff))

/-! ## Concrete records used in scenario evaluations -/

/-- A Brooklyn 2020 record whose contributing factor is "Pedestrian error". -/
def recPedErr : Record :=
  ⟨some 2020, "BROOKLYN", none, none, some "Sedan", some "Pedestrian error",
    some 2, some 0⟩

/-- A Brooklyn 2020 record whose factor is "Following too closely". -/
def recFollow : Record :=
  ⟨some 2020, "BROOKLYN", none, none, some "SUV",
    some "Following too closely", some 1, some 0⟩

/-- A record whose CSV borough cell was absent: it carries the sentinel. -/
def recNoBorough : Record :=
  ⟨none, normalizeBorough none, none, none, none, none, some 1, none⟩

/-- A Manhattan record. -/
def recManhattan : Record :=
  ⟨none, "MANHATTAN", none, none, none, none, some 2, none⟩

/-- A Queens 2020 record with 3 injuries. -/
def recPlain : Record :=
  ⟨some 2020, "QUEENS", none, none, some "Sedan", none, some 3, some 1⟩

/-- A record with an absent year and 3 injuries. -/
def recNoYear : Record :=
  ⟨none, "BROOKLYN", none, none, none, none, some 3, none⟩

/-- A record with latitude present but longitude absent. -/
def recLatOnly : Record :=
  ⟨some 2021, "QUEENS", some 1, none, some "Bike", none, some 1, some 0⟩

/-! ## Lemmas about `uniqueFirst` -/

theorem mem_uniqueFirstAux {α : Type} [DecidableEq α] :
    ∀ (fuel : Nat) (l : List α) (a : α), l.length ≤ fuel →
      (a ∈ uniqueFirstAux fuel l ↔ a ∈ l) := by
  intro fuel
  induction fuel with
  | zero =>
    intro l a h
    cases l with
    | nil => simp [uniqueFirstAux]
    | cons x xs => simp at h
  | succ n ih =>
    intro l a h
    cases l with
    | nil => simp [uniqueFirstAux]
    | cons x xs =>
      have hlen : (xs.filter (fun y => y != x)).length ≤ n := by
        have h1 := List.length_filter_le (fun y => y != x) xs
        simp only [List.length_cons, Nat.succ_le_succ_iff] at h
        omega
      simp only [uniqueFirstAux, List.mem_cons, ih _ a hlen, List.mem_filter,
        bne_iff_ne, ne_eq]
      constructor
      · rintro (rfl | ⟨hmem, _⟩)
        · exact .inl rfl
        · exact .inr hmem
      · rintro (rfl | hmem)
        · exact .inl rfl
        · by_cases hax : a = x
          · exact .inl hax
          · exact .inr ⟨hmem, hax⟩

theorem mem_uniqueFirst {α : Type} [DecidableEq α] {l : List α} {a : α} :
    a ∈ uniqueFirst l ↔ a ∈ l :=
  mem_uniqueFirstAux l.length l a (Nat.le_refl _)

theorem nodup_uniqueFirstAux {α : Type} [DecidableEq α] :
    ∀ (fuel : Nat) (l : List α), l.length ≤ fuel →
      (uniqueFirstAux fuel l).Nodup := by
  intro fuel
  induction fuel with
  | zero =>
    intro l h
    cases l with
    | nil => simp [uniqueFirstAux]
    | cons x xs => simp at h
  | succ n ih =>
    intro l h
    cases l with
    | nil => simp [uniqueFirstAux]
    | cons x xs =>
      have hlen : (xs.filter (fun y => y != x)).length ≤ n := by
        have h1 := List.length_filter_le (fun y => y != x) xs
        simp only [List.length_cons, Nat.succ_le_succ_iff] at h
        omega
      simp only [uniqueFirstAux, List.nodup_cons]
      refine ⟨fun hx => ?_, ih _ hlen⟩
      have := (mem_uniqueFirstAux n _ x hlen).mp hx
      simp [List.mem_filter] at this

theorem nodup_uniqueFirst {α : Type} [DecidableEq α] (l : List α) :
    (uniqueFirst l).Nodup :=
  nodup_uniqueFirstAux l.length l (Nat.le_refl _)

/-- Removing elements by `filter` does not change the relative order of the
first occurrences of the surviving values. -/
theorem indexOf_filter_lt {α : Type} [DecidableEq α] (p : α → Bool) :
    ∀ (l : List α) (a b : α), a ∈ l.filter p → b ∈ l.filter p →
      (l.filter p).indexOf a < (l.filter p).indexOf b →
      l.indexOf a < l.indexOf b := by
  intro l
  induction l with
  | nil => intro a b ha _ _; simp at ha
  | cons h t ih =>
    intro a b ha hb hlt
    by_cases php : p h
    · rw [List.filter_cons_of_pos php] at ha hb hlt
      by_cases hbh : b = h
      · subst hbh
        rw [List.indexOf_cons_self] at hlt
        exact absurd hlt (Nat.not_lt_zero _)
      · by_cases hah : a = h
        · subst hah
          rw [List.indexOf_cons_self]
          rw [List.indexOf_cons_ne t (fun hba => hbh hba.symm)]
          exact Nat.succ_pos _
        · have ha' : a ∈ t.filter p := by
            rcases List.mem_cons.mp ha with h1 | h1
            · exact absurd h1 hah
            · exact h1
          have hb' : b ∈ t.filter p := by
            rcases List.mem_cons.mp hb with h1 | h1
            · exact absurd h1 hbh
            · exact h1
          rw [List.indexOf_cons_ne _ (fun hx => hah hx.symm),
            List.indexOf_cons_ne _ (fun hx => hbh hx.symm)] at hlt
          have := ih a b ha' hb' (Nat.lt_of_succ_lt_succ hlt)
          rw [List.indexOf_cons_ne t (fun hx => hah hx.symm),
            List.indexOf_cons_ne t (fun hx => hbh hx.symm)]
          exact Nat.succ_lt_succ this
    · rw [List.filter_cons_of_neg php] at ha hb hlt
      have hah : a ≠ h := fun hx => php (hx ▸ (List.mem_filter.mp ha).2)
      have hbh : b ≠ h := fun hx => php (hx ▸ (List.mem_filter.mp hb).2)
      rw [List.indexOf_cons_ne t (fun hx => hah hx.symm),
        List.indexOf_cons_ne t (fun hx => hbh hx.symm)]
      exact Nat.succ_lt_succ (ih a b ha hb hlt)

/-- `uniqueFirst` lists values in the order of their first occurrence: a
value appearing strictly earlier in `uniqueFirst l` occurs for the first
time strictly earlier in `l`. -/
theorem sublist_pair_uniqueFirstAux {α : Type} [DecidableEq α] :
    ∀ (fuel : Nat) (l : List α) (a b : α), l.length ≤ fuel →
      [a, b].Sublist (uniqueFirstAux fuel l) →
      l.indexOf a < l.indexOf b := by
  intro fuel
  induction fuel with
  | zero =>
    intro l a b h hsub
    cases l with
    | nil => simp [uniqueFirstAux] at hsub
    | cons x xs => simp at h
  | succ n ih =>
    intro l a b h hsub
    cases l with
    | nil => simp [uniqueFirstAux] at hsub
    | cons x xs =>
      have hlen : (xs.filter (fun y => y != x)).length ≤ n := by
        have h1 := List.length_filter_le (fun y => y != x) xs
        simp only [List.length_cons, Nat.succ_le_succ_iff] at h
        omega
      simp only [uniqueFirstAux] at hsub
      cases hsub with
      | cons _ h' =>
        have ha : a ∈ xs.filter (fun y => y != x) :=
          (mem_uniqueFirstAux n _ a hlen).mp (h'.subset (by simp))
        have hb : b ∈ xs.filter (fun y => y != x) :=
          (mem_uniqueFirstAux n _ b hlen).mp (h'.subset (by simp))
        have hax : a ≠ x := by
          have := (List.mem_filter.mp ha).2; simpa using this
        have hbx : b ≠ x := by
          have := (List.mem_filter.mp hb).2; simpa using this
        have hxs : xs.indexOf a < xs.indexOf b :=
          indexOf_filter_lt _ xs a b ha hb (ih _ a b hlen h')
        rw [List.indexOf_cons_ne xs (fun hx => hax hx.symm),
          List.indexOf_cons_ne xs (fun hx => hbx hx.symm)]
        exact Nat.succ_lt_succ hxs
      | cons₂ _ h' =>
        have hb : b ∈ xs.filter (fun y => y != a) :=
          (mem_uniqueFirstAux n _ b hlen).mp (List.singleton_sublist.mp h')
        have hbx : b ≠ a := by
          have := (List.mem_filter.mp hb).2; simpa using this
        rw [List.indexOf_cons_self, List.indexOf_cons_ne xs (fun hx => hbx hx.symm)]
        exact Nat.succ_pos _

theorem sublist_pair_uniqueFirst {α : Type} [DecidableEq α] {l : List α}
    {a b : α} (h : [a, b].Sublist (uniqueFirst l)) :
    l.indexOf a < l.indexOf b :=
  sublist_pair_uniqueFirstAux l.length l a b (Nat.le_refl _) h

/-! ## Lemmas about `insertBy` / `sortedBy` -/

theorem perm_insertBy {α : Type} (le : α → α → Bool) (x : α) :
    ∀ l : List α, (insertBy le x l).Perm (x :: l) := by
  intro l
  induction l with
  | nil => simp [insertBy]
  | cons y ys ih =>
    simp only [insertBy]
    by_cases h : le x y
    · simp [h]
    · simp only [h, if_false, Bool.false_eq_true]
      exact (ih.cons y).trans (List.Perm.swap x y ys)

theorem perm_sortedBy {α : Type} (le : α → α → Bool) :
    ∀ l : List α, (sortedBy le l).Perm l := by
  intro l
  induction l with
  | nil => simp [sortedBy]
  | cons x xs ih =>
    have : sortedBy le (x :: xs) = insertBy le x (sortedBy le xs) := rfl
    rw [this]
    exact (perm_insertBy le x (sortedBy le xs)).trans (ih.cons x)

theorem mem_sortedBy {α : Type} (le : α → α → Bool) (l : List α) (a : α) :
    a ∈ sortedBy le l ↔ a ∈ l :=
  (perm_sortedBy le l).mem_iff

theorem length_sortedBy {α : Type} (le : α → α → Bool) (l : List α) :
    (sortedBy le l).length = l.length :=
  (perm_sortedBy le l).length_eq

theorem nodup_sortedBy {α : Type} (le : α → α → Bool) {l : List α}
    (h : l.Nodup) : (sortedBy le l).Nodup :=
  ((perm_sortedBy le l).nodup_iff).mpr h

theorem mem_insertBy {α : Type} (le : α → α → Bool) (x : α) (l : List α)
    (a : α) : a ∈ insertBy le x l ↔ a = x ∨ a ∈ l := by
  rw [(perm_insertBy le x l).mem_iff, List.mem_cons]

theorem pairwise_insertBy {α : Type} {le : α → α → Bool}
    (htot : ∀ a b, le a b = true ∨ le b a = true)
    (htrans : ∀ a b c, le a b = true → le b c = true → le a c = true)
    (x : α) :
    ∀ l : List α, l.Pairwise (fun a b => le a b = true) →
      (insertBy le x l).Pairwise (fun a b => le a b = true) := by
  intro l
  induction l with
  | nil => intro _; simp [insertBy]
  | cons y ys ih =>
    intro hp
    rcases List.pairwise_cons.mp hp with ⟨hy, hys⟩
    simp only [insertBy]
    by_cases hxy : le x y = true
    · simp only [hxy, if_true]
      refine List.pairwise_cons.mpr ⟨?_, hp⟩
      intro z hz
      rcases List.mem_cons.mp hz with rfl | hz'
      · exact hxy
      · exact htrans x y z hxy (hy z hz')
    · simp only [hxy, if_false, Bool.false_eq_true]
      refine List.pairwise_cons.mpr ⟨?_, ih hys⟩
      intro z hz
      rcases (mem_insertBy le x ys z).mp hz with rfl | hz'
      · rcases htot z y with h | h
        · exact absurd h hxy
        · exact h
      · exact hy z hz'

theorem pairwise_sortedBy {α : Type} {le : α → α → Bool}
    (htot : ∀ a b, le a b = true ∨ le b a = true)
    (htrans : ∀ a b c, le a b = true → le b c = true → le a c = true)
    (l : List α) :
    (sortedBy le l).Pairwise (fun a b => le a b = true) := by
  induction l with
  | nil => simp [sortedBy]
  | cons x xs ih => exact pairwise_insertBy htot htrans x (sortedBy le xs) ih

/-- Stability of the `value_counts` sort: filtering one count value out of
an insertion keeps the inserted element in front of the equal-count
elements already present. -/
theorem filter_insertBy_count (x : String × Nat) (c : Nat) :
    ∀ l : List (String × Nat),
      (insertBy countDescLe x l).filter (fun p => p.2 == c) =
        if x.2 == c then x :: l.filter (fun p => p.2 == c)
        else l.filter (fun p => p.2 == c) := by
  intro l
  induction l with
  | nil =>
    by_cases h : x.2 == c <;> simp [insertBy, List.filter_cons, h]
  | cons y ys ih =>
    simp only [insertBy]
    by_cases hle : countDescLe x y
    · simp only [hle, if_true, List.filter_cons]
    · simp only [hle, if_false, Bool.false_eq_true, List.filter_cons]
      have hxylt : x.2 < y.2 := by
        simp only [countDescLe, decide_eq_true_eq] at hle
        omega
      by_cases hyc : y.2 == c
      · have hxc : (x.2 == c) = false := by
          have : y.2 = c := by simpa using hyc
          have : x.2 ≠ c := by omega
          simpa using this
        simp only [hyc, if_true, ih, hxc, if_false, Bool.false_eq_true]
      · simp only [hyc, Bool.false_eq_true, if_false, ih]

/-- Stability of the full sort: the equal-count entries appear in the same
order as in the unsorted list. -/
theorem filter_sortedBy_count (c : Nat) :
    ∀ l : List (String × Nat),
      (sortedBy countDescLe l).filter (fun p => p.2 == c) =
        l.filter (fun p => p.2 == c) := by
  intro l
  induction l with
  | nil => simp [sortedBy]
  | cons x xs ih =>
    have hstep : sortedBy countDescLe (x :: xs) =
        insertBy countDescLe x (sortedBy countDescLe xs) := rfl
    rw [hstep, filter_insertBy_count, ih, List.filter_cons]

/-- Inverting a two-element sublist of a mapped list. -/
theorem pair_sublist_map {α β : Type} (f : α → β) (y1 y2 : β) :
    ∀ l : List α, [y1, y2].Sublist (l.map f) →
      ∃ x1 x2, [x1, x2].Sublist l ∧ f x1 = y1 ∧ f x2 = y2 := by
  intro l
  induction l with
  | nil => intro h; simp at h
  | cons x xs ih =>
    intro h
    simp only [List.map_cons] at h
    cases h with
    | cons _ h' =>
      obtain ⟨x1, x2, hsub, h1, h2⟩ := ih h'
      exact ⟨x1, x2, hsub.cons x, h1, h2⟩
    | cons₂ _ h' =>
      obtain ⟨x2, hx2, hfx2⟩ := List.mem_map.mp (List.singleton_sublist.mp h')
      exact ⟨x, x2, List.Sublist.cons₂ x (List.singleton_sublist.mpr hx2),
        rfl, hfx2⟩

/-! ## Sum-partition lemmas -/

theorem sum_map_filter_split {α : Type} (l : List α) (p : α → Bool)
    (f : α → Nat) :
    ((l.filter p).map f).sum + ((l.filter (fun a => !p a)).map f).sum
      = (l.map f).sum := by
  induction l with
  | nil => simp
  | cons x xs ih =>
    simp only [List.filter_cons, List.map_cons, List.sum_cons]
    by_cases h : p x <;> simp only [h, if_true, if_false, Bool.not_true,
      Bool.not_false, Bool.false_eq_true, List.map_cons, List.sum_cons] <;>
      omega

/-- Summing group sums over a duplicate-free, covering list of keys gives
the total sum. -/
theorem sum_partition {α κ : Type} [DecidableEq κ] (key : α → κ)
    (f : α → Nat) :
    ∀ (ks : List κ) (l : List α), ks.Nodup → (∀ a ∈ l, key a ∈ ks) →
      (ks.map (fun k =>
        ((l.filter (fun a => decide (key a = k))).map f).sum)).sum
        = (l.map f).sum := by
  intro ks
  induction ks with
  | nil =>
    intro l _ hcov
    have : l = [] := by
      rw [List.eq_nil_iff_forall_not_mem]
      intro a ha
      exact absurd (hcov a ha) (List.not_mem_nil _)
    subst this; simp
  | cons k ks' ih =>
    intro l hnd hcov
    rcases List.nodup_cons.mp hnd with ⟨hknot, hnd'⟩
    have hstep : ∀ k' ∈ ks',
        ((l.filter (fun a => decide (key a = k'))).map f).sum =
          (((l.filter (fun a => !(decide (key a = k)))).filter
            (fun a => decide (key a = k'))).map f).sum := by
      intro k' hk'
      have hkk' : k ≠ k' := fun h => hknot (h ▸ hk')
      rw [List.filter_filter]
      have hfe : List.filter (fun a => decide (key a = k')) l
          = List.filter
              (fun a => decide (key a = k') && !(decide (key a = k))) l := by
        apply List.filter_congr
        intro a _
        by_cases h : key a = k'
        · have h2 : ¬(k' = k) := fun hc => hkk' hc.symm
          simp [h, h2]
        · simp [h]
      rw [← hfe]
    have hcov' : ∀ a ∈ l.filter (fun a => !(decide (key a = k))),
        key a ∈ ks' := by
      intro a ha
      rcases List.mem_filter.mp ha with ⟨hal, hne⟩
      rcases List.mem_cons.mp (hcov a hal) with h | h
      · exfalso
        simp only [Bool.not_eq_true', decide_eq_false_iff_not] at hne
        exact hne h
      · exact h
    calc ((k :: ks').map (fun k =>
          ((l.filter (fun a => decide (key a = k))).map f).sum)).sum
        = ((l.filter (fun a => decide (key a = k))).map f).sum +
            (ks'.map (fun k' =>
              (((l.filter (fun a => !(decide (key a = k)))).filter
                (fun a => decide (key a = k'))).map f).sum)).sum := by
          simp only [List.map_cons, List.sum_cons]
          congr 1
          exact congrArg List.sum (List.map_congr_left hstep)
      _ = ((l.filter (fun a => decide (key a = k))).map f).sum +
            ((l.filter (fun a => !(decide (key a = k)))).map f).sum := by
          rw [ih _ hnd' hcov']
      _ = (l.map f).sum := sum_map_filter_split l _ f

/-! ## Lemmas about the Query Engine -/

theorem mem_of_mem_applyYear {yopt : Option Int} {l : List Record}
    {r : Record} (h : r ∈ applyYear yopt l) : r ∈ l := by
  cases yopt with
  | none => exact h
  | some y =>
    simp only [applyYear] at h
    split at h
    · exact h
    · exact (List.mem_filter.mp h).1

theorem mem_of_mem_applyBorough {bopt : Option String} {l : List Record}
    {r : Record} (h : r ∈ applyBorough bopt l) : r ∈ l := by
  cases bopt with
  | none => exact h
  | some b =>
    simp only [applyBorough] at h
    split at h
    · exact h
    · exact (List.mem_filter.mp h).1

theorem borough_of_mem_applyBorough {b : String} (hb : b ≠ "")
    {l : List Record} {r : Record} (h : r ∈ applyBorough (some b) l) :
    r.borough = pyUpper b := by
  simp only [applyBorough, hb, if_false] at h
  simpa using (List.mem_filter.mp h).2

theorem boroughFold_cons (term b : String) (bs : List String)
    (dff : List Record) :
    boroughFold term (b :: bs) dff
      = boroughFold term bs (boroughStep term dff b) := rfl

theorem mem_of_mem_boroughStep {term : String} {dff : List Record}
    {b : String} {r : Record} (h : r ∈ boroughStep term dff b) : r ∈ dff := by
  simp only [boroughStep] at h
  split at h
  · exact (List.mem_filter.mp h).1
  · exact h

theorem mem_of_mem_boroughFold {term : String} :
    ∀ {bs : List String} {dff : List Record} {r : Record},
      r ∈ boroughFold term bs dff → r ∈ dff := by
  intro bs
  induction bs with
  | nil => intro dff r h; exact h
  | cons b bs ih => intro dff r h; exact mem_of_mem_boroughStep (ih h)

/-- Each borough whose lowered name occurs in the term restricts the whole
result of the loop: after the loop, every surviving record lower-cases its
borough to that borough's lowered name. -/
theorem borough_matched_boroughFold {term b : String}
    (hmatch : pyIn (pyLower b) term = true) :
    ∀ {bs : List String} {dff : List Record} {r : Record},
      b ∈ bs → r ∈ boroughFold term bs dff →
      pyLower r.borough = pyLower b := by
  intro bs
  induction bs with
  | nil => intro dff r h; simp at h
  | cons b0 bs ih =>
    intro dff r hb h
    rcases List.mem_cons.mp hb with rfl | hb'
    · have hr : r ∈ boroughStep term dff b := mem_of_mem_boroughFold h
      simp only [boroughStep, hmatch, if_true] at hr
      simpa using (List.mem_filter.mp hr).2
    · exact ih hb' h

/-- Two distinct matching borough names empty the working set: the second
restriction intersects the first. -/
theorem boroughFold_empty_of_two {term b1 b2 : String}
    (h1m : pyIn (pyLower b1) term = true)
    (h2m : pyIn (pyLower b2) term = true)
    (hne : pyLower b1 ≠ pyLower b2) {bs : List String} {dff : List Record}
    (h1 : b1 ∈ bs) (h2 : b2 ∈ bs) :
    boroughFold term bs dff = [] := by
  rw [List.eq_nil_iff_forall_not_mem]
  intro r hr
  have e1 := borough_matched_boroughFold h1m h1 hr
  have e2 := borough_matched_boroughFold h2m h2 hr
  exact hne (e1.symm.trans e2)

theorem boroughFold_no_match {term : String} :
    ∀ {bs : List String}, (∀ b ∈ bs, pyIn (pyLower b) term = false) →
      ∀ dff, boroughFold term bs dff = dff := by
  intro bs
  induction bs with
  | nil => intro _ dff; rfl
  | cons b bs ih =>
    intro h dff
    have hb := h b (List.mem_cons_self b bs)
    have hstep : boroughStep term dff b = dff := by
      simp [boroughStep, hb]
    rw [boroughFold_cons, hstep,
      ih (fun b' hb' => h b' (List.mem_cons_of_mem _ hb')) dff]

theorem yearFold_cons (term : String) (y : Int) (ys : List Int)
    (dff : List Record) :
    yearFold term (y :: ys) dff = yearFold term ys (yearStep term dff y) := rfl

theorem yearFold_no_match {term : String} :
    ∀ {ys : List Int}, (∀ y ∈ ys, pyIn (toString y) term = false) →
      ∀ dff, yearFold term ys dff = dff := by
  intro ys
  induction ys with
  | nil => intro _ dff; rfl
  | cons y ys ih =>
    intro h dff
    have hy := h y (List.mem_cons_self y ys)
    have hstep : yearStep term dff y = dff := by
      simp [yearStep, hy]
    rw [yearFold_cons, hstep,
      ih (fun y' hy' => h y' (List.mem_cons_of_mem _ hy')) dff]

/-- When exactly one lowered borough name (`target`) matches the term, the
loop reduces to a single filter by that name. -/
theorem boroughFold_eq_filter {term target : String} :
    ∀ {bs : List String} (dff : List Record),
      (∀ b ∈ bs, pyIn (pyLower b) term = true → pyLower b = target) →
      (∃ b ∈ bs, pyIn (pyLower b) term = true) →
      boroughFold term bs dff
        = dff.filter (fun r => pyLower r.borough == target) := by
  intro bs
  induction bs with
  | nil => intro dff _ hex; simp at hex
  | cons b bs ih =>
    intro dff hall hex
    by_cases hm : pyIn (pyLower b) term = true
    · have htar : pyLower b = target := hall b (List.mem_cons_self b bs) hm
      have hstep : boroughStep term dff b
          = dff.filter (fun r => pyLower r.borough == target) := by
        simp only [boroughStep, hm, if_true]
        rw [htar]
      rw [boroughFold_cons, hstep]
      by_cases hex' : ∃ b' ∈ bs, pyIn (pyLower b') term = true
      · rw [ih _ (fun b' hb' => hall b' (List.mem_cons_of_mem _ hb')) hex',
          List.filter_filter]
        apply List.filter_congr
        intro r _
        exact Bool.and_self _
      · push_neg at hex'
        exact boroughFold_no_match
          (fun b' hb' => Bool.eq_false_iff.mpr (hex' b' hb')) _
    · rcases hex with ⟨b', hb', hm'⟩
      rcases List.mem_cons.mp hb' with rfl | hb''
      · exact absurd hm' hm
      · have hstep : boroughStep term dff b = dff := by
          simp only [boroughStep]
          rw [if_neg (by simpa using hm)]
        rw [boroughFold_cons, hstep]
        exact ih _ (fun b0 hb0 => hall b0 (List.mem_cons_of_mem _ hb0))
          ⟨b', hb'', hm'⟩

/-- Records surviving the search block with a "pedestrian" term have a
present contributing factor containing "pedestrian" case-insensitively. -/
theorem factor_of_mem_runSearch {store : List Record} {s : String}
    {dff : List Record} {r : Record}
    (hped : pyIn "pedestrian" (pyLower s) = true)
    (h : r ∈ runSearch store s dff) :
    ∃ f, r.contributing_factor_vehicle_1 = some f ∧
      pyIn "pedestrian" (pyLower f) = true := by
  simp only [runSearch, applyPedestrian, hped, if_true] at h
  have hm := (List.mem_filter.mp h).2
  simp only [pedMatch] at hm
  cases hf : r.contributing_factor_vehicle_1 with
  | none => rw [hf] at hm; simp at hm
  | some f => rw [hf] at hm; exact ⟨f, rfl, hm⟩

theorem mem_distinctBoroughs {store : List Record} {b : String} :
    b ∈ distinctBoroughs store ↔ ∃ r ∈ store, r.borough = b := by
  simp [distinctBoroughs, mem_uniqueFirst]

theorem mem_distinctYears {store : List Record} {y : Int} :
    y ∈ distinctYears store ↔ ∃ r ∈ store, r.year = some y := by
  simp [distinctYears, mem_uniqueFirst]

/-! ## Lemmas about the Aggregation Layer -/

/-- The heatmap grid total counts exactly the records with a present year:
`pivot_table` drops the records whose `year` group key is absent. -/
theorem heatTotal_presentYear (view : List Record) :
    heatTotal view = sumInj (view.filter (fun r => r.year.isSome)) := by
  have hpt : ∀ (p : String × Int) (r : Record),
      ((r.borough == p.1) && (r.year == some p.2))
        = (decide ((r.borough, r.year.getD 0) = p) && r.year.isSome) := by
    intro p r
    cases hy : r.year with
    | none => simp [hy]
    | some y0 =>
      simp only [hy, Option.getD_some, Option.isSome_some, Bool.and_true]
      by_cases h1 : r.borough = p.1
      · by_cases h2 : y0 = p.2 <;> simp [h1, h2, Prod.ext_iff]
      · simp [h1, Prod.ext_iff]
  have hcell : ∀ p ∈ (pivotBoroughs view) ×ˢ (pivotYears view),
      cellSum view p.1 p.2 =
        (((view.filter (fun r => r.year.isSome)).filter
          (fun r => decide ((r.borough, r.year.getD 0) = p))).map
            (fun r => r.number_of_persons_injured.getD 0)).sum := by
    intro p _
    unfold cellSum
    rw [List.filter_filter]
    congr 1
    congr 1
    apply List.filter_congr
    intro r _
    exact hpt p r
  have hnodup : ((pivotBoroughs view) ×ˢ (pivotYears view)).Nodup :=
    List.Nodup.product (nodup_sortedBy _ (nodup_uniqueFirst _))
      (nodup_sortedBy _ (nodup_uniqueFirst _))
  have hcov : ∀ r ∈ view.filter (fun r => r.year.isSome),
      (r.borough, r.year.getD 0) ∈ (pivotBoroughs view) ×ˢ (pivotYears view) := by
    intro r hr
    rcases List.mem_filter.mp hr with ⟨hrv, hys⟩
    rcases Option.isSome_iff_exists.mp hys with ⟨y, hy⟩
    apply List.mem_product.mpr
    constructor
    · rw [pivotBoroughs, mem_sortedBy, mem_uniqueFirst]
      exact List.mem_map.mpr ⟨r, hr, rfl⟩
    · rw [pivotYears, mem_sortedBy, mem_uniqueFirst, hy, Option.getD_some]
      exact List.mem_filterMap.mpr ⟨r, hrv, hy⟩
  have hpart := sum_partition (fun r : Record => (r.borough, r.year.getD 0))
    (fun r => r.number_of_persons_injured.getD 0)
    ((pivotBoroughs view) ×ˢ (pivotYears view))
    (view.filter (fun r => r.year.isSome)) hnodup hcov
  unfold heatTotal heatCells
  rw [List.map_map]
  calc (((pivotBoroughs view) ×ˢ (pivotYears view)).map
        ((fun c : String × Int × Nat => c.2.2) ∘
          (fun p : String × Int => (p.1, p.2, cellSum view p.1 p.2)))).sum
      = (((pivotBoroughs view) ×ˢ (pivotYears view)).map
          (fun p => (((view.filter (fun r => r.year.isSome)).filter
            (fun r => decide ((r.borough, r.year.getD 0) = p))).map
              (fun r => r.number_of_persons_injured.getD 0)).sum)).sum := by
        apply congrArg List.sum
        apply List.map_congr_left
        intro p hp
        simpa using hcell p hp
    _ = ((view.filter (fun r => r.year.isSome)).map
          (fun r => r.number_of_persons_injured.getD 0)).sum := hpart
    _ = sumInj (view.filter (fun r => r.year.isSome)) := rfl

/-- The sunburst group sums, before the zero→1 substitution, total the
injuries of the view. -/
theorem sunburstGroups_total (view : List Record) :
    ((sunburstGroups view).map (fun g => g.2.2)).sum = sumInj view := by
  have hcell : ∀ k ∈ sortedBy pairLeB (uniqueFirst (view.map sunKey)),
      sunGroupSum view k =
        ((view.filter (fun r => decide (sunKey r = k))).map
          (fun r => r.number_of_persons_injured.getD 0)).sum := by
    intro k _
    unfold sunGroupSum
    congr 1
    congr 1
    apply List.filter_congr
    intro r _
    by_cases h : sunKey r = k <;> simp [h]
  have hnodup : (sortedBy pairLeB (uniqueFirst (view.map sunKey))).Nodup :=
    nodup_sortedBy _ (nodup_uniqueFirst _)
  have hcov : ∀ r ∈ view,
      sunKey r ∈ sortedBy pairLeB (uniqueFirst (view.map sunKey)) := by
    intro r hr
    rw [mem_sortedBy, mem_uniqueFirst]
    exact List.mem_map.mpr ⟨r, hr, rfl⟩
  have hpart := sum_partition sunKey
    (fun r => r.number_of_persons_injured.getD 0)
    (sortedBy pairLeB (uniqueFirst (view.map sunKey))) view hnodup hcov
  unfold sunburstGroups
  rw [List.map_map]
  calc ((sortedBy pairLeB (uniqueFirst (view.map sunKey))).map
        ((fun g : String × String × Nat => g.2.2) ∘
          (fun k : String × String => (k.1, k.2, sunGroupSum view k)))).sum
      = ((sortedBy pairLeB (uniqueFirst (view.map sunKey))).map
          (fun k => ((view.filter (fun r => decide (sunKey r = k))).map
            (fun r => r.number_of_persons_injured.getD 0)).sum)).sum := by
        apply congrArg List.sum
        apply List.map_congr_left
        intro k hk
        simpa using hcell k hk
    _ = (view.map (fun r => r.number_of_persons_injured.getD 0)).sum := hpart
    _ = sumInj view := rfl

theorem countDescLe_total (a b : String × Nat) :
    countDescLe a b = true ∨ countDescLe b a = true := by
  unfold countDescLe
  rcases Nat.le_total b.2 a.2 with h | h
  · left; simpa using h
  · right; simpa using h

theorem countDescLe_trans (a b c : String × Nat) :
    countDescLe a b = true → countDescLe b c = true →
    countDescLe a c = true := by
  unfold countDescLe
  intro h1 h2
  simp only [decide_eq_true_eq] at h1 h2 ⊢
  omega

/-! ## Claim theorems -/

/-- **C1.**  For every Record Store and FilterSpec whose FilteredView is
empty, the callback short-circuits before the eight aggregations
(lines 143–146) and all eight outputs are the one shared "no data"
placeholder `Chart.noData`; in particular for a store with no record of
year 2099 and spec `{year: 2099}` all eight outputs equal that
placeholder. -/
theorem C1_empty_view_placeholder :
    (∀ (store : List Record) (spec : FilterSpec) (n : Nat), n ≠ 0 →
        filterRecords store spec = [] →
        update_charts n store spec = some (Chart.noData, Chart.noData,
          Chart.noData, Chart.noData, Chart.noData, Chart.noData,
          Chart.noData, Chart.noData)) ∧
    (∀ (store : List Record) (n : Nat), n ≠ 0 →
        (∀ r ∈ store, r.year ≠ some 2099) →
        update_charts n store ⟨none, some 2099, none⟩ = some (Chart.noData,
          Chart.noData, Chart.noData, Chart.noData, Chart.noData,
          Chart.noData, Chart.noData, Chart.noData)) := by
  have main : ∀ (store : List Record) (spec : FilterSpec) (n : Nat), n ≠ 0 →
      filterRecords store spec = [] →
      update_charts n store spec = some (Chart.noData, Chart.noData,
        Chart.noData, Chart.noData, Chart.noData, Chart.noData,
        Chart.noData, Chart.noData) := by
    intro store spec n hn hempty
    unfold update_charts
    rw [if_neg hn]
    simp only [hempty, List.isEmpty_nil, if_true]
  refine ⟨main, fun store n hn hno => main store _ n hn ?_⟩
  show applyYear (some 2099) (applyBorough none (applySearch store none store)) = []
  simp only [applyBorough, applySearch, applyYear]
  rw [if_neg (by decide : ¬(2099 : Int) = 0), List.filter_eq_nil_iff]
  intro r hr
  simp only [beq_iff_eq]
  exact hno r hr

/-- Witness for C1: a concrete one-record store with year 2020 and the
spec `{year: 2099}` produce the placeholder eightfold. -/
theorem C1_witness :
    update_charts 1 [recPlain] ⟨none, some 2099, none⟩ = some (Chart.noData,
      Chart.noData, Chart.noData, Chart.noData, Chart.noData, Chart.noData,
      Chart.noData, Chart.noData) :=
  C1_empty_view_placeholder.2 [recPlain] 1 (by decide) (by decide)

/-- **C2.**  Whenever the borough dropdown is set (to a non-falsy value),
every record of the FilteredView has its normalized borough equal to the
upper-cased spec value, whatever the search term and year setting. -/
theorem C2_borough_dropdown (store : List Record) (spec : FilterSpec)
    (b : String) (hb : spec.borough = some b) (hb0 : b ≠ "") :
    ∀ r ∈ filterRecords store spec, r.borough = pyUpper b := by
  intro r hr
  unfold filterRecords at hr
  rw [hb] at hr
  exact borough_of_mem_applyBorough hb0 (mem_of_mem_applyYear hr)

/-- Witness for C2 at a concrete store and spec
`{borough: "Brooklyn", search: "x"}`. -/
theorem C2_witness : recPedErr.borough = pyUpper "Brooklyn" :=
  C2_borough_dropdown [recPedErr, recManhattan]
    ⟨some "Brooklyn", none, some "x"⟩ "Brooklyn" rfl (by decide) recPedErr
    (by decide)

/-- **C3.**  In search-term resolution, every distinct borough of the full
store whose lowered name occurs in the term restricts the whole working
set to records of that borough (restrictions compose by intersection), and
two matching boroughs with distinct lowered names (the names by which the
loop matches) force the working set empty — so only a term containing
exactly one borough name can come out non-empty through this path. -/
theorem C3_search_borough_narrowing :
    (∀ (store : List Record) (term : String) (dff : List Record)
        (b : String), b ∈ distinctBoroughs store →
        pyIn (pyLower b) term = true →
        ∀ r ∈ boroughFold term (distinctBoroughs store) dff,
          pyLower r.borough = pyLower b) ∧
    (∀ (store : List Record) (term : String) (dff : List Record)
        (b1 b2 : String), b1 ∈ distinctBoroughs store →
        b2 ∈ distinctBoroughs store → pyIn (pyLower b1) term = true →
        pyIn (pyLower b2) term = true → pyLower b1 ≠ pyLower b2 →
        boroughFold term (distinctBoroughs store) dff = []) := by
  constructor
  · intro store term dff b hb hm r hr
    exact borough_matched_boroughFold hm hb hr
  · intro store term dff b1 b2 hb1 hb2 h1 h2 hne
    exact boroughFold_empty_of_two h1 h2 hne hb1 hb2

/-- Witness for C3: term "brooklyn" restricts to Brooklyn, and the
two-borough term "brooklyn manhattan" empties a two-borough store. -/
theorem C3_witness :
    pyLower recPedErr.borough = pyLower "BROOKLYN" ∧
    boroughFold "brooklyn manhattan"
      (distinctBoroughs [recPedErr, recManhattan])
      [recPedErr, recManhattan] = [] :=
  ⟨C3_search_borough_narrowing.1 [recPedErr] "brooklyn" [recPedErr]
      "BROOKLYN" (by decide) (by decide) recPedErr (by decide),
    C3_search_borough_narrowing.2 [recPedErr, recManhattan]
      "brooklyn manhattan" [recPedErr, recManhattan] "BROOKLYN" "MANHATTAN"
      (by decide) (by decide) (by decide) (by decide) (by decide)⟩

/-- **C5.**  A search term containing "pedestrian" (any case — the code
lowers the term first) restricts the working set to exactly the records
whose contributing factor contains "pedestrian" case-insensitively, absent
factors never matching: (1) every record of the final FilteredView has such
a factor, (2) the pedestrian step keeps exactly the matching records of the
working set, and (3) the "brooklyn 2020 pedestrian" scenario returns only
the record with factor "Pedestrian error". -/
theorem C5_pedestrian_search :
    (∀ (store : List Record) (spec : FilterSpec) (s : String) (r : Record),
        spec.search = some s → pyIn "pedestrian" (pyLower s) = true →
        r ∈ filterRecords store spec →
        ∃ f, r.contributing_factor_vehicle_1 = some f ∧
          pyIn "pedestrian" (pyLower f) = true) ∧
    (∀ (term : String) (ws : List Record) (r : Record),
        pyIn "pedestrian" term = true →
        (r ∈ applyPedestrian term ws ↔ r ∈ ws ∧ pedMatch r = true)) ∧
    filterRecords [recPedErr, recFollow]
      ⟨none, none, some "brooklyn 2020 pedestrian"⟩ = [recPedErr] := by
  refine ⟨?_, ?_, by decide⟩
  · intro store spec s r hs hped hr
    unfold filterRecords at hr
    rw [hs] at hr
    have hr1 := mem_of_mem_applyBorough (mem_of_mem_applyYear hr)
    by_cases hse : s = ""
    · rw [hse] at hped
      exact absurd hped (by decide)
    · simp only [applySearch] at hr1
      rw [if_neg hse] at hr1
      exact factor_of_mem_runSearch hped hr1
  · intro term ws r hped
    simp only [applyPedestrian, hped, if_true, List.mem_filter]

/-- Witness for C5 at the scenario store and term. -/
theorem C5_witness :
    (∃ f, recPedErr.contributing_factor_vehicle_1 = some f ∧
      pyIn "pedestrian" (pyLower f) = true) ∧
    (recPedErr ∈ applyPedestrian "brooklyn 2020 pedestrian"
        [recPedErr, recFollow] ↔
      recPedErr ∈ [recPedErr, recFollow] ∧ pedMatch recPedErr = true) :=
  ⟨C5_pedestrian_search.1 [recPedErr, recFollow]
      ⟨none, none, some "brooklyn 2020 pedestrian"⟩
      "brooklyn 2020 pedestrian" recPedErr rfl (by decide) (by decide),
    C5_pedestrian_search.2.1 "brooklyn 2020 pedestrian"
      [recPedErr, recFollow] recPedErr (by decide)⟩

/-- **C4 (counterexample).**  The claim "the heatmap grid total equals the
sum of injuries over all records of the FilteredView — including records
whose year is absent" fails: for the one-record store `[recNoYear]`
(year absent, 3 injuries) and the all-unset spec, the FilteredView is
`[recNoYear]` (non-empty) but the grid total is 0 while the view's
injuries sum to 3, because `pivot_table` drops absent-year records from
the grouping. -/
theorem C4_counterexample :
    filterRecords [recNoYear] ⟨none, none, none⟩ = [recNoYear] ∧
    heatTotal (filterRecords [recNoYear] ⟨none, none, none⟩) ≠
      sumInj (filterRecords [recNoYear] ⟨none, none, none⟩) := by
  refine ⟨rfl, ?_⟩
  decide

/-- **C4 (amended).**  For every non-empty FilteredView the heatmap grid
total equals the injuries summed over the records of the view whose year
is present (absent-year records are dropped by the pivot's grouping). -/
theorem C4_heatmap_total (store : List Record) (spec : FilterSpec)
    (_hne : filterRecords store spec ≠ []) :
    heatTotal (filterRecords store spec) =
      sumInj ((filterRecords store spec).filter (fun r => r.year.isSome)) :=
  heatTotal_presentYear _

/-- Witness for the amended C4 at a two-record view with one absent-year
record. -/
theorem C4_witness :
    heatTotal (filterRecords [recPlain, recNoYear] ⟨none, none, none⟩) =
      sumInj ((filterRecords [recPlain, recNoYear]
        ⟨none, none, none⟩).filter (fun r => r.year.isSome)) :=
  C4_heatmap_total [recPlain, recNoYear] ⟨none, none, none⟩ (by decide)

/-- **C6 (counterexample).**  "The sentinel is not a valid filter match"
fails on the code: line 34 computes the dropdown options after the
`astype(str)` normalization, so "NAN" is itself an offered borough value,
and selecting it matches exactly the absent-borough records — here the
borough restriction selects the absent-borough record `recNoBorough`. -/
theorem C6_counterexample :
    normalizeBorough none = "NAN" ∧
    filterRecords [recNoBorough, recManhattan] ⟨some "NAN", none, none⟩
      = [recNoBorough] :=
  ⟨rfl, by decide⟩

/-- **C6 (amended).**  A record with absent borough carries the sentinel
"NAN" (i); a borough restriction whose value does not designate the
sentinel never matches such a record: a dropdown value whose upper-case is
not "NAN" excludes it from the FilteredView (ii), and a search-derived
borough restriction for a borough whose lowered name is not "nan" excludes
it from the working set (iii).  (A filter value that does designate "NAN"
matches it — see the counterexample.) -/
theorem C6_sentinel_filtering :
    normalizeBorough none = "NAN" ∧
    (∀ (store : List Record) (spec : FilterSpec) (b : String) (r : Record),
        spec.borough = some b → b ≠ "" → pyUpper b ≠ "NAN" →
        r ∈ filterRecords store spec → r.borough ≠ "NAN") ∧
    (∀ (store : List Record) (term : String) (dff : List Record)
        (b : String) (r : Record), b ∈ distinctBoroughs store →
        pyIn (pyLower b) term = true → pyLower b ≠ "nan" →
        r ∈ boroughFold term (distinctBoroughs store) dff →
        r.borough ≠ "NAN") := by
  refine ⟨rfl, ?_, ?_⟩
  · intro store spec b r hb hb0 hbn hr hcontra
    have heq : r.borough = pyUpper b := by
      unfold filterRecords at hr
      rw [hb] at hr
      exact borough_of_mem_applyBorough hb0 (mem_of_mem_applyYear hr)
    exact hbn (heq.symm.trans hcontra)
  · intro store term dff b r hbs hm hbn hr hcontra
    have heq := borough_matched_boroughFold hm hbs hr
    rw [hcontra] at heq
    have hn : pyLower "NAN" = "nan" := by decide
    rw [hn] at heq
    exact hbn heq.symm

/-- Witness for the amended C6: a "Manhattan" dropdown and a "brooklyn
nights" search never select a sentinel-borough record. -/
theorem C6_witness :
    recManhattan.borough ≠ "NAN" ∧ recPedErr.borough ≠ "NAN" :=
  ⟨C6_sentinel_filtering.2.1 [recNoBorough, recManhattan]
      ⟨some "Manhattan", none, none⟩ "Manhattan" recManhattan rfl
      (by decide) (by decide) (by decide),
    C6_sentinel_filtering.2.2 [recNoBorough, recPedErr] "brooklyn nights"
      [recNoBorough, recPedErr] "BROOKLYN" recPedErr (by decide) (by decide)
      (by decide) (by decide)⟩

/-- **C10 (counterexample).**  "nan" is not a contiguous substring of
"manhattan", so a search for "manhattan" does not trigger the sentinel
restriction: for a store with one absent-borough record and one Manhattan
record and no dropdowns, the FilteredView is `[recManhattan]` — not
empty as the claim asserts. -/
theorem C10_counterexample :
    pyIn "nan" "manhattan" = false ∧
    filterRecords [recNoBorough, recManhattan]
      ⟨none, none, some "manhattan"⟩ = [recManhattan] :=
  ⟨by decide, by decide⟩

/-- **C10 (amended).**  For a store containing a Manhattan record, in
which "MANHATTAN" is the only borough whose lowered name occurs in
"manhattan" (true of the sentinel "NAN" and the real borough names) and
no year's decimal string occurs in it, the search term "manhattan" with no
dropdowns yields exactly the MANHATTAN records — non-empty, because the
"nan"-restriction is never applied. -/
theorem C10_manhattan_search (store : List Record) (rM : Record)
    (hM : rM ∈ store) (hMb : rM.borough = "MANHATTAN")
    (hB : ∀ r ∈ store, pyIn (pyLower r.borough) "manhattan" = true →
      r.borough = "MANHATTAN")
    (hY : ∀ r ∈ store, ∀ y : Int, r.year = some y →
      pyIn (toString y) "manhattan" = false) :
    filterRecords store ⟨none, none, some "manhattan"⟩
      = store.filter (fun r => r.borough == "MANHATTAN") ∧
    rM ∈ filterRecords store ⟨none, none, some "manhattan"⟩ := by
  have hmain : filterRecords store ⟨none, none, some "manhattan"⟩
      = store.filter (fun r => pyLower r.borough == "manhattan") := by
    show applyPedestrian (pyLower "manhattan")
      (yearFold (pyLower "manhattan") (distinctYears store)
        (boroughFold (pyLower "manhattan") (distinctBoroughs store) store))
      = _
    have hterm : pyLower "manhattan" = "manhattan" := by decide
    rw [hterm]
    have hall : ∀ b ∈ distinctBoroughs store,
        pyIn (pyLower b) "manhattan" = true → pyLower b = "manhattan" := by
      intro b hb hm
      obtain ⟨r, hr, hrb⟩ := mem_distinctBoroughs.mp hb
      have := hB r hr (by rw [hrb]; exact hm)
      rw [← hrb, this]
      decide
    have hex : ∃ b ∈ distinctBoroughs store,
        pyIn (pyLower b) "manhattan" = true := by
      refine ⟨"MANHATTAN", mem_distinctBoroughs.mpr ⟨rM, hM, hMb⟩, ?_⟩
      decide
    rw [boroughFold_eq_filter store hall hex]
    rw [yearFold_no_match (fun y hy => ?_) _]
    · simp only [applyPedestrian]
      rw [if_neg (by decide : ¬pyIn "pedestrian" "manhattan" = true)]
    · obtain ⟨r, hr, hry⟩ := mem_distinctYears.mp hy
      exact hY r hr y hry
  have hfilters : store.filter (fun r => pyLower r.borough == "manhattan")
      = store.filter (fun r => r.borough == "MANHATTAN") := by
    apply List.filter_congr
    intro r hr
    by_cases h : r.borough = "MANHATTAN"
    · rw [h]; decide
    · have hne : pyLower r.borough ≠ "manhattan" := by
        intro hc
        exact h (hB r hr (by rw [hc]; decide))
      simp [h, hne]
  refine ⟨hmain.trans hfilters, ?_⟩
  rw [hmain.trans hfilters]
  exact List.mem_filter.mpr ⟨hM, by rw [hMb]; decide⟩

/-- Witness for the amended C10 at the two-record store. -/
theorem C10_witness :
    filterRecords [recNoBorough, recManhattan]
        ⟨none, none, some "manhattan"⟩
      = [recNoBorough, recManhattan].filter
          (fun r => r.borough == "MANHATTAN") ∧
    recManhattan ∈ filterRecords [recNoBorough, recManhattan]
      ⟨none, none, some "manhattan"⟩ :=
  C10_manhattan_search [recNoBorough, recManhattan] recManhattan (by decide)
    rfl (by decide)
    (by
      intro r hr y hy
      fin_cases hr <;> simp_all [recNoBorough, recManhattan])

/-- **C7.**  For every non-empty FilteredView the sunburst groups records
by (borough, vehicle type with absent mapped to "UNKNOWN"); the group sums
taken before the zero→1 substitution total exactly the injuries of the
view, and the group keys are exactly the keys occurring in the view. -/
theorem C7_sunburst_totals (store : List Record) (spec : FilterSpec)
    (_hne : filterRecords store spec ≠ []) :
    ((sunburstGroups (filterRecords store spec)).map (fun g => g.2.2)).sum
      = sumInj (filterRecords store spec) ∧
    (∀ b v : String,
        (∃ s, (b, v, s) ∈ sunburstGroups (filterRecords store spec)) ↔
          ∃ r ∈ filterRecords store spec,
            r.borough = b ∧ r.vehicle_type_code1.getD "UNKNOWN" = v) := by
  refine ⟨sunburstGroups_total _, ?_⟩
  intro b v
  constructor
  · rintro ⟨s, hs⟩
    unfold sunburstGroups at hs
    obtain ⟨k, hk, hke⟩ := List.mem_map.mp hs
    have hk1 : k.1 = b := congrArg (fun t : String × String × Nat => t.1) hke
    have hk2 : k.2 = v :=
      congrArg (fun t : String × String × Nat => t.2.1) hke
    rw [mem_sortedBy, mem_uniqueFirst] at hk
    obtain ⟨r, hr, hkr⟩ := List.mem_map.mp hk
    refine ⟨r, hr, ?_, ?_⟩
    · exact (congrArg Prod.fst hkr).trans hk1
    · exact (congrArg Prod.snd hkr).trans hk2
  · rintro ⟨r, hr, hrb, hrv⟩
    refine ⟨sunGroupSum (filterRecords store spec) (b, v), ?_⟩
    unfold sunburstGroups
    apply List.mem_map.mpr
    refine ⟨(b, v), ?_, rfl⟩
    rw [mem_sortedBy, mem_uniqueFirst]
    apply List.mem_map.mpr
    refine ⟨r, hr, ?_⟩
    unfold sunKey
    rw [hrb, hrv]

/-- Witness for C7 at a concrete three-record view. -/
theorem C7_witness :
    ((sunburstGroups (filterRecords [recPedErr, recFollow]
        ⟨none, none, none⟩)).map (fun g => g.2.2)).sum
      = sumInj (filterRecords [recPedErr, recFollow] ⟨none, none, none⟩) ∧
    ((∃ s, ("BROOKLYN", "Sedan", s) ∈ sunburstGroups
        (filterRecords [recPedErr, recFollow] ⟨none, none, none⟩)) ↔
      ∃ r ∈ filterRecords [recPedErr, recFollow] ⟨none, none, none⟩,
        r.borough = "BROOKLYN" ∧
        r.vehicle_type_code1.getD "UNKNOWN" = "Sedan") :=
  ⟨(C7_sunburst_totals [recPedErr, recFollow] ⟨none, none, none⟩
      (by decide)).1,
    (C7_sunburst_totals [recPedErr, recFollow] ⟨none, none, none⟩
      (by decide)).2 "BROOKLYN" "Sedan"⟩

/-- **C8.**  The geographic summary holds exactly the records with both
coordinates present; a record with latitude present but longitude absent
is excluded from it yet still contributes to the histogram column and the
scatter points; when no record of a non-empty view is located, the map is
the sentinel point at (40.7128, -74.0060), a placeholder distinct from the
whole-view `Chart.noData`. -/
theorem C8_geographic (store : List Record) (spec : FilterSpec)
    (_hne : filterRecords store spec ≠ []) :
    (∀ r : Record, r ∈ mapData (filterRecords store spec) ↔
        r ∈ filterRecords store spec ∧ r.latitude.isSome = true ∧
          r.longitude.isSome = true) ∧
    (∀ r ∈ filterRecords store spec, r.latitude.isSome = true →
        r.longitude = none →
        r ∉ mapData (filterRecords store spec) ∧
        r.number_of_persons_injured ∈ histValues (filterRecords store spec) ∧
        (r.number_of_persons_injured, r.number_of_persons_killed, r.borough)
          ∈ scatterPoints (filterRecords store spec)) ∧
    (mapData (filterRecords store spec) = [] →
        mapChart (filterRecords store spec)
          = Chart.mapNoLocation (40.7128 : ℚ) (-74.0060 : ℚ)) ∧
    Chart.mapNoLocation (40.7128 : ℚ) (-74.0060 : ℚ) ≠ Chart.noData := by
  refine ⟨?_, ?_, ?_, fun h => Chart.noConfusion h⟩
  · intro r
    unfold mapData
    rw [List.mem_filter]
    simp [Bool.and_eq_true]
  · intro r hr hlat hlon
    refine ⟨?_, List.mem_map.mpr ⟨r, hr, rfl⟩, List.mem_map.mpr ⟨r, hr, rfl⟩⟩
    intro hmem
    unfold mapData at hmem
    have h2 := (List.mem_filter.mp hmem).2
    rw [hlon] at h2
    simp at h2
  · intro hempty
    unfold mapChart
    rw [hempty]
    rfl

/-- Witness for C8 at a one-record view whose record has latitude but no
longitude. -/
theorem C8_witness :
    (recLatOnly ∈ mapData (filterRecords [recLatOnly] ⟨none, none, none⟩) ↔
      recLatOnly ∈ filterRecords [recLatOnly] ⟨none, none, none⟩ ∧
        recLatOnly.latitude.isSome = true ∧
        recLatOnly.longitude.isSome = true) ∧
    (recLatOnly ∉ mapData (filterRecords [recLatOnly] ⟨none, none, none⟩) ∧
      recLatOnly.number_of_persons_injured
        ∈ histValues (filterRecords [recLatOnly] ⟨none, none, none⟩) ∧
      (recLatOnly.number_of_persons_injured,
        recLatOnly.number_of_persons_killed, recLatOnly.borough)
        ∈ scatterPoints (filterRecords [recLatOnly] ⟨none, none, none⟩)) ∧
    mapChart (filterRecords [recLatOnly] ⟨none, none, none⟩)
      = Chart.mapNoLocation (40.7128 : ℚ) (-74.0060 : ℚ) :=
  ⟨(C8_geographic [recLatOnly] ⟨none, none, none⟩ (by decide)).1 recLatOnly,
    (C8_geographic [recLatOnly] ⟨none, none, none⟩ (by decide)).2.1
      recLatOnly (by decide) (by decide) (by decide),
    (C8_geographic [recLatOnly] ⟨none, none, none⟩ (by decide)).2.2.1
      (by decide)⟩

/-- Full characterisation of `value_counts().nlargest(10)` on a view: the
entries carry true occurrence counts of present vehicle types, are in
descending count order, number `min 10 #distinct`, dominate every dropped
entry, and order count-ties by first occurrence in the view. -/
theorem topVehicle_spec (view : List Record) :
    (∀ p ∈ topVehicle view, p.1 ∈ vehicleList view ∧
        p.2 = (vehicleList view).count p.1) ∧
    List.Pairwise (fun a b => b.2 ≤ a.2) (topVehicle view) ∧
    (topVehicle view).length
      = min 10 (valueCounts (vehicleList view)).length ∧
    (∀ p ∈ valueCounts (vehicleList view), p ∉ topVehicle view →
        ∀ q ∈ topVehicle view, p.2 ≤ q.2) ∧
    (∀ (v1 v2 : String) (c : Nat),
        [(v1, c), (v2, c)].Sublist (topVehicle view) →
        (vehicleList view).indexOf v1 < (vehicleList view).indexOf v2) := by
  have hsorted :
      (sortedBy countDescLe (valueCounts (vehicleList view))).Pairwise
        (fun a b => countDescLe a b = true) :=
    pairwise_sortedBy countDescLe_total countDescLe_trans _
  refine ⟨?_, ?_, ?_, ?_, ?_⟩
  · intro p hp
    have h2 : p ∈ valueCounts (vehicleList view) :=
      (mem_sortedBy _ _ p).mp ((List.take_sublist 10 _).subset hp)
    obtain ⟨v, hv, hvp⟩ := List.mem_map.mp h2
    cases hvp
    exact ⟨mem_uniqueFirst.mp hv, rfl⟩
  · exact (List.Pairwise.sublist (List.take_sublist 10 _) hsorted).imp
      (fun h => by simpa [countDescLe] using h)
  · show ((sortedBy countDescLe (valueCounts (vehicleList view))).take
        10).length = _
    rw [List.length_take, length_sortedBy]
  · intro p hp hnot q hq
    have hps : p ∈ sortedBy countDescLe (valueCounts (vehicleList view)) :=
      (mem_sortedBy _ _ p).mpr hp
    rw [← List.take_append_drop 10
      (sortedBy countDescLe (valueCounts (vehicleList view)))]
      at hps hsorted
    rcases List.mem_append.mp hps with hin | hdrop
    · exact absurd hin hnot
    · have h3 := (List.pairwise_append.mp hsorted).2.2 q hq p hdrop
      simpa [countDescLe] using h3
  · intro v1 v2 c hsub
    have hs1 : [(v1, c), (v2, c)].Sublist
        (sortedBy countDescLe (valueCounts (vehicleList view))) :=
      hsub.trans (List.take_sublist 10 _)
    have hs2 := List.Sublist.filter (fun p => p.2 == c) hs1
    have hfs : [(v1, c), (v2, c)].filter
        (fun p : String × Nat => p.2 == c) = [(v1, c), (v2, c)] := by simp
    rw [hfs, filter_sortedBy_count] at hs2
    have hs3 : [(v1, c), (v2, c)].Sublist (valueCounts (vehicleList view)) :=
      hs2.trans (List.filter_sublist _)
    unfold valueCounts at hs3
    obtain ⟨x1, x2, hsu, he1, he2⟩ := pair_sublist_map _ _ _ _ hs3
    have hx1 : x1 = v1 := congrArg Prod.fst he1
    have hx2 : x2 = v2 := congrArg Prod.fst he2
    rw [hx1, hx2] at hsu
    exact sublist_pair_uniqueFirst hsu

/-- **C9.**  For every non-empty FilteredView, the top-vehicle-types
summary counts occurrences of each present `vehicle_type_code1` value
(absent excluded), returns at most 10 entries in descending-count order
covering the most frequent values, with equal counts ordered by first
occurrence in the view. -/
theorem C9_top_vehicle_types (store : List Record) (spec : FilterSpec)
    (_hne : filterRecords store spec ≠ []) :
    (∀ p ∈ topVehicle (filterRecords store spec),
        p.1 ∈ vehicleList (filterRecords store spec) ∧
        p.2 = (vehicleList (filterRecords store spec)).count p.1) ∧
    List.Pairwise (fun a b => b.2 ≤ a.2)
      (topVehicle (filterRecords store spec)) ∧
    (topVehicle (filterRecords store spec)).length
      = min 10 (valueCounts (vehicleList (filterRecords store spec))).length ∧
    (∀ p ∈ valueCounts (vehicleList (filterRecords store spec)),
        p ∉ topVehicle (filterRecords store spec) →
        ∀ q ∈ topVehicle (filterRecords store spec), p.2 ≤ q.2) ∧
    (∀ (v1 v2 : String) (c : Nat),
        [(v1, c), (v2, c)].Sublist (topVehicle (filterRecords store spec)) →
        (vehicleList (filterRecords store spec)).indexOf v1
          < (vehicleList (filterRecords store spec)).indexOf v2) :=
  topVehicle_spec (filterRecords store spec)

/-- Witness for C9 at a three-record view with vehicle column
["Sedan", "SUV", "Sedan"]. -/
theorem C9_witness :
    (("Sedan", 2).1 ∈ vehicleList (filterRecords
        [recPedErr, recFollow, recPlain] ⟨none, none, none⟩) ∧
      ("Sedan", 2).2 = (vehicleList (filterRecords
        [recPedErr, recFollow, recPlain] ⟨none, none, none⟩)).count
          ("Sedan", 2).1) ∧
    List.Pairwise (fun a b => b.2 ≤ a.2) (topVehicle (filterRecords
      [recPedErr, recFollow, recPlain] ⟨none, none, none⟩)) :=
  ⟨(C9_top_vehicle_types [recPedErr, recFollow, recPlain]
      ⟨none, none, none⟩ (by decide)).1 ("Sedan", 2) (by decide),
    (C9_top_vehicle_types [recPedErr, recFollow, recPlain]
      ⟨none, none, none⟩ (by decide)).2.1⟩
